import Mathlib

/-!
Shallow embedding of the sharkscope real-time aggregation core
(src/frontend/src/App.jsx, src/frontend/src/components/Globe.jsx and the
planar map component), together with theorems settling the frozen claims.

Modelling conventions:
* JavaScript numbers that hold byte/packet counts are `Nat` (they are only
  ever incremented by non-negative packet lengths); timestamps
  (`Date.now()` values) are `Int`; geographic coordinates are `ℚ`.
  `Math.sqrt` (used only for the planar screen distance, which feeds the
  arc control-point height and the hit-test sample count) is modelled by a
  rational approximation `ratSqrt`; no claim depends on its precision.
* A JavaScript `Map` is an insertion-ordered association list; `Map.set`
  of a fresh key appends, mutation of a found value updates in place.
* The JS array-of-strings sort `[a, b].sort()` on a two-element array
  yields the lexicographically ordered pair, modelled by `sortedPair`.
* Fields that may be `null`/`undefined` are `Option`s.  A JS expression
  that would throw (e.g. `null.toFixed(1)`, or `JSON.parse` of a
  malformed frame) is modelled with `Except`, the thrown case being
  `.error`.
-/

namespace Shark

/-- GeoPoint: `{ lat, lon, city?, country?, unknown, isHome, pending }`.
`lat`/`lon` are absent (JS `null`/missing) for pending lookups. -/
structure Geo where
  lat : Option ℚ := none
  lon : Option ℚ := none
  city : Option String := none
  country : Option String := none
  pending : Bool := false
  unknown : Bool := false
  isHome : Bool := false
deriving DecidableEq

/-- Connection record as stored in the `connections` React state. -/
structure Conn where
  id : String
  src_ip : String
  dst_ip : String
  src_port : Option Nat := none
  dst_port : Option Nat := none
  protocol : Option String := none
  src_geo : Option Geo := none
  dst_geo : Option Geo := none
  process : Option String := none
  pid : Option Nat := none
  bytes : Nat
  packets : Nat
  timestamp : Int := 0
  lastActive : Int
deriving DecidableEq

/-- Transient packet event used only for the animation layer. -/
structure PktEv where
  id : String
  connKey : String × String
  src_ip : String
  dst_ip : String
  src_geo : Option Geo := none
  dst_geo : Option Geo := none
  timestamp : Int
  size : Nat
deriving DecidableEq

/-- Running stats counters `{ packets, flows, bytes }`. -/
structure Stats where
  packets : Nat := 0
  flows : Nat := 0
  bytes : Nat := 0
deriving DecidableEq

/-- Coalesced per-pair delta stored in `pendingConnectionUpdatesRef`. -/
structure Delta where
  bytes : Nat
  packets : Nat
  lastActive : Int
deriving DecidableEq

/-- Incoming `packet` message payload.  `now` is the value `Date.now()`
returns while the handler body runs (the handler reads the clock several
times within the same millisecond). `length` is `data.length || 0`. -/
structure PacketIn where
  src_ip : String
  dst_ip : String
  src_port : Option Nat := none
  dst_port : Option Nat := none
  protocol : Option String := none
  src_geo : Option Geo := none
  dst_geo : Option Geo := none
  process : Option String := none
  pid : Option Nat := none
  length : Nat := 0
  new_flow : Bool := false
  timestamp : Int := 0
  now : Int := 0
deriving DecidableEq

/-- MAX_CONNECTIONS = 1000. -/
def MAX_CONNECTIONS : Nat := 1000

/-- MAX_PACKET_EVENTS = 300. -/
def MAX_PACKET_EVENTS : Nat := 300

/-- PACKET_EVENT_TTL_MS = 2000. -/
def PACKET_EVENT_TTL_MS : Int := 2000

/-- BATCH_INTERVAL_MS = 50. -/
def BATCH_INTERVAL_MS : Int := 50

/-- Lexicographic code-unit comparison of two character sequences, the
order the JS default array sort uses on strings. -/
def charListLe : List Char → List Char → Bool
  | [], _ => true
  | _ :: _, [] => false
  | a :: as, b :: bs =>
      if a < b then true
      else if b < a then false
      else charListLe as bs

/-- Lexicographic string comparison (JS `String` comparison). -/
def strLe (a b : String) : Bool :=
  charListLe a.data b.data

/-- `[a, b].sort().join('-')` on two strings: the lexicographically
ordered pair (the join with `'-'` is kept as a pair; IP strings never
contain `'-'`, so the pair determines the joined key and conversely). -/
def sortedPair (a b : String) : String × String :=
  if strLe a b then (a, b) else (b, a)

/-- The unordered pairing key of a connection record. -/
def connKey (c : Conn) : String × String :=
  sortedPair c.src_ip c.dst_ip

/-- The unordered pairing key of a packet message. -/
def packetKey (p : PacketIn) : String × String :=
  sortedPair p.src_ip p.dst_ip

/-- `data.src_geo || data.dst_geo`: the packet carries geo data on at
least one endpoint. -/
def hasGeo (p : PacketIn) : Bool :=
  p.src_geo.isSome || p.dst_geo.isSome

/-- The four pending accumulators captured by the batching refs. -/
structure Pending where
  packetEvents : List PktEv := []
  newConnections : List Conn := []
  updates : List ((String × String) × Delta) := []
  stats : Stats := {}
deriving DecidableEq

/-- Look a pairing key up in the pending-updates map (first — and, as
keys are unique, only — entry with this key). -/
def lookupUpd : List ((String × String) × Delta) → (String × String) →
    Option Delta
  | [], _ => none
  | kv :: rest, k => if kv.1 = k then some kv.2 else lookupUpd rest k

/-- In-place mutation of an existing pending delta
(`existing.bytes += …; existing.packets += 1; existing.lastActive = now`). -/
def bumpDelta (len : Nat) (now : Int) (u : Delta) : Delta :=
  { bytes := u.bytes + len, packets := u.packets + 1, lastActive := now }

/-- `pendingConnectionUpdatesRef` accumulation for one packet: mutate the
existing delta if the key is present, otherwise `Map.set` a fresh one. -/
def bumpUpd (l : List ((String × String) × Delta)) (k : String × String)
    (len : Nat) (now : Int) : List ((String × String) × Delta) :=
  match lookupUpd l k with
  | some _ =>
      l.map (fun kv => if kv.1 = k then (kv.1, bumpDelta len now kv.2) else kv)
  | none => l ++ [(k, { bytes := len, packets := 1, lastActive := now })]

/-- The packet event pushed for a geo-carrying packet (the
`Math.random()` suffix of the id, used only for uniqueness, is omitted). -/
def mkPktEv (p : PacketIn) : PktEv :=
  { id := (packetKey p).1 ++ "-" ++ (packetKey p).2 ++ "-" ++ toString p.now
    connKey := packetKey p
    src_ip := p.src_ip
    dst_ip := p.dst_ip
    src_geo := p.src_geo
    dst_geo := p.dst_geo
    timestamp := p.now
    size := p.length }

/-- The connection record created for a `new_flow` packet. -/
def mkConn (p : PacketIn) : Conn :=
  { id := p.src_ip ++ "-" ++ p.dst_ip ++ "-" ++ toString p.now
    src_ip := p.src_ip
    dst_ip := p.dst_ip
    src_port := p.src_port
    dst_port := p.dst_port
    src_geo := p.src_geo
    dst_geo := p.dst_geo
    protocol := p.protocol
    process := p.process
    pid := p.pid
    bytes := p.length
    packets := 1
    timestamp := p.timestamp
    lastActive := p.now }

/-- The `data.type === 'packet'` branch of `ws.onmessage`: accumulate
stats, a packet event (if any geo), and either a pending new connection
(`new_flow` with geo) or a coalesced per-pair delta (geo, not new). -/
def ingestPacket (st : Pending) (p : PacketIn) : Pending :=
  let st :=
    { st with stats :=
        { packets := st.stats.packets + 1
          flows := st.stats.flows + (if p.new_flow then 1 else 0)
          bytes := st.stats.bytes + p.length } }
  let st :=
    if hasGeo p then
      { st with packetEvents := st.packetEvents ++ [mkPktEv p] }
    else st
  if p.new_flow && hasGeo p then
    { st with newConnections := st.newConnections ++ [mkConn p] }
  else if hasGeo p then
    { st with updates := bumpUpd st.updates (packetKey p) p.length p.now }
  else st

/-- Accumulate a burst of packet messages between two flushes. -/
def ingestBatch (st : Pending) (ps : List PacketIn) : Pending :=
  ps.foldl ingestPacket st

/-- One connection's delta application inside the flush `map`. -/
def applyUpd (upds : List ((String × String) × Delta)) (c : Conn) : Conn :=
  match lookupUpd upds (connKey c) with
  | some u =>
      { c with bytes := c.bytes + u.bytes, packets := c.packets + u.packets,
               lastActive := u.lastActive }
  | none => c

/-- `updated.sort((a, b) => (b.lastActive || 0) - (a.lastActive || 0))`:
stable sort by `lastActive` descending (insertion sort is stable, like
the JS engine sort the source relies on). -/
def sortByLastActive (l : List Conn) : List Conn :=
  l.insertionSort (fun a b => b.lastActive ≤ a.lastActive)

/-- `setConnections(prev => [...newConnections, ...prev].slice(0,
MAX_CONNECTIONS))`: prepend the batch, truncate to capacity. -/
def insertConns (batch prev : List Conn) : List Conn :=
  (batch ++ prev).take MAX_CONNECTIONS

/-- Apply the coalesced deltas to every matching record and re-sort by
`lastActive` descending. -/
def applyDeltas (upds : List ((String × String) × Delta))
    (prev : List Conn) : List Conn :=
  sortByLastActive (prev.map (applyUpd upds))

/-- The connection-store part of `flushBatchedUpdates`: prepend pending
new connections and truncate to capacity (guarded on a non-empty batch),
then apply the coalesced deltas and re-sort (guarded on a non-empty
update map). -/
def flushConnections (prev newConns : List Conn)
    (upds : List ((String × String) × Delta)) : List Conn :=
  let afterInsert :=
    if 0 < newConns.length then insertConns newConns prev
    else prev
  if 0 < upds.length then applyDeltas upds afterInsert
  else afterInsert

/-- `geo_update` patch of one record: replace `dst_geo` and/or `src_geo`
with the resolved point when the matching endpoint is currently
`unknown` (`conn.dst_geo?.unknown` truthy). -/
def geoUnknown : Option Geo → Bool
  | some g0 => g0.unknown
  | none => false

def patchGeoConn (ip : String) (g : Geo) (c : Conn) : Conn :=
  let c1 :=
    if c.dst_ip == ip && geoUnknown c.dst_geo then { c with dst_geo := some g }
    else c
  if c1.src_ip == ip && geoUnknown c1.src_geo then { c1 with src_geo := some g }
  else c1

/-- `process_update` patch of one record: set `process`/`pid` on a
pair-matching record (either orientation) that has no process yet. -/
def patchProcessConn (src_ip dst_ip : String) (process : String)
    (pid : Option Nat) (c : Conn) : Conn :=
  if (c.src_ip = src_ip ∧ c.dst_ip = dst_ip) ∨
     (c.src_ip = dst_ip ∧ c.dst_ip = src_ip) then
    if c.process = none then { c with process := some process, pid := pid }
    else c
  else c

/-- The mutations the Connection Store undergoes (flush insert, flush
delta application, enrichment patches, explicit clear). -/
inductive StoreOp where
  | insert (batch : List Conn)
  | deltas (upds : List ((String × String) × Delta))
  | geoPatch (ip : String) (geo : Geo)
  | processPatch (src_ip dst_ip : String) (process : String) (pid : Option Nat)
  | clear
deriving DecidableEq

/-- Apply one store operation. -/
def applyStoreOp (conns : List Conn) : StoreOp → List Conn
  | .insert batch => insertConns batch conns
  | .deltas upds => applyDeltas upds conns
  | .geoPatch ip geo => conns.map (patchGeoConn ip geo)
  | .processPatch s d p pid => conns.map (patchProcessConn s d p pid)
  | .clear => []

/-- Apply a sequence of store operations. -/
def applyStoreOps (conns : List Conn) (ops : List StoreOp) : List Conn :=
  ops.foldl applyStoreOp conns

/-- The packet-event part of `flushBatchedUpdates`: filter out events at
or past the TTL cutoff, append the pending ones, keep the last
MAX_PACKET_EVENTS (`slice(-MAX_PACKET_EVENTS)`); with no pending events
only the filter runs. -/
def flushPacketEvents (now : Int) (prev pend : List PktEv) : List PktEv :=
  if 0 < pend.length then
    let combined := (prev.filter (fun e => now - PACKET_EVENT_TTL_MS < e.timestamp)) ++ pend
    combined.drop (combined.length - MAX_PACKET_EVENTS)
  else
    prev.filter (fun e => now - PACKET_EVENT_TTL_MS < e.timestamp)

/-- The stats part of `flushBatchedUpdates` (the `> 0` guard is kept). -/
def flushStats (prev pend : Stats) : Stats :=
  if 0 < pend.packets ∨ 0 < pend.flows ∨ 0 < pend.bytes then
    { packets := prev.packets + pend.packets
      flows := prev.flows + pend.flows
      bytes := prev.bytes + pend.bytes }
  else prev

/-- Durable state read by the render loop plus the pending accumulators. -/
structure CoreState where
  connections : List Conn := []
  packetEvents : List PktEv := []
  stats : Stats := {}
  pending : Pending := {}
  capturing : Bool := true
  isRecording : Bool := false
deriving DecidableEq

/-- `flushBatchedUpdates`: capture and clear the refs, then apply the
batch to the packet-event window, the connection store and the stats. -/
def flushBatchedUpdates (now : Int) (s : CoreState) : CoreState :=
  { s with
    pending := {}
    packetEvents := flushPacketEvents now s.packetEvents s.pending.packetEvents
    connections := flushConnections s.connections s.pending.newConnections
      s.pending.updates
    stats := flushStats s.stats s.pending.stats }

/-- `lat.toFixed(1)`: round to one decimal digit (JS renders the rounded
value as a string; the rounded rational carries the same information). -/
def toFixed1 (q : ℚ) : ℚ :=
  (round (q * 10) : ℤ) / 10

/-- Lexicographic comparison of two rounded coordinate strings
`"lat,lon"`; used to model the two-element `[srcKey, dstKey].sort()`. -/
def coordLe (a b : ℚ × ℚ) : Prop :=
  a.1 < b.1 ∨ (a.1 = b.1 ∧ a.2 ≤ b.2)

instance : DecidablePred fun p : (ℚ × ℚ) × (ℚ × ℚ) => coordLe p.1 p.2 :=
  fun _ => by unfold coordLe; infer_instance

instance (a b : ℚ × ℚ) : Decidable (coordLe a b) := by
  unfold coordLe; infer_instance

/-- `[srcKey, dstKey].sort()`: the ordered pair of coordinate keys. -/
def sortCoordPair (a b : ℚ × ℚ) : (ℚ × ℚ) × (ℚ × ℚ) :=
  if coordLe a b then (a, b) else (b, a)

/-- ArcGroup keys.  Location mode uses the sorted pair of rounded
coordinate keys (`"srcKey-dstKey"`), app mode uses
`processName + "-" + dstKey`.  The two string formats never collide, so
the key space is a sum. -/
inductive ArcKey where
  | loc : (ℚ × ℚ) → (ℚ × ℚ) → ArcKey
  | app : String → (ℚ × ℚ) → ArcKey
deriving DecidableEq

/-- Derived arc aggregate (one arc per geographic path / per app). -/
structure ArcGroup where
  key : ArcKey
  srcGeo : Geo
  dstGeo : Geo
  process : Option String := none
  connections : List Conn := []
  totalBytes : Nat := 0
  totalPackets : Nat := 0
deriving DecidableEq

/-- `conn.src_geo || homeLocation` (a GeoPoint object is JS-truthy). -/
def effGeo (own home : Option Geo) : Option Geo :=
  match own with
  | some g => some g
  | none => home

/-- `Map.set` a fresh group if the key is absent, then push the
connection and add its totals onto the keyed group. -/
def addConn (gs : List ArcGroup) (key : ArcKey) (sg dg : Geo)
    (proc : Option String) (c : Conn) : List ArcGroup :=
  let gs1 :=
    if gs.any (fun g => decide (g.key = key)) then gs
    else gs ++ [{ key := key, srcGeo := sg, dstGeo := dg, process := proc }]
  gs1.map (fun g =>
    if g.key = key then
      { g with connections := g.connections ++ [c],
               totalBytes := g.totalBytes + c.bytes,
               totalPackets := g.totalPackets + c.packets }
    else g)

/-- `lat.toFixed(1) + ',' + lon.toFixed(1)` for one endpoint whose `lat`
is known to be non-null; a null `lon` makes `lon.toFixed(1)` throw a
TypeError, modelled by `.error`. -/
def coordOf (lat : ℚ) (lon : Option ℚ) : Except Unit (ℚ × ℚ) :=
  match lon with
  | some l => .ok (toFixed1 lat, toFixed1 l)
  | none => .error ()

/-- Key construction and accumulation for one non-skipped connection in
location mode: `srcKey`/`dstKey` from `toFixed(1)` (throwing on a null
`lon`), the sorted pair key, and the group update. -/
def arcLocAdd (gs : List ArcGroup) (sg dg : Geo) (slat dlat : ℚ)
    (c : Conn) : Except Unit (List ArcGroup) :=
  match coordOf slat sg.lon with
  | .error e => .error e
  | .ok sk =>
      match coordOf dlat dg.lon with
      | .error e => .error e
      | .ok dk =>
          .ok (addConn gs
            (.loc (sortCoordPair sk dk).1 (sortCoordPair sk dk).2)
            sg dg none c)

/-- One `connections.forEach` iteration of the location-mode `arcGroups`
useMemo: resolve effective geos, skip on absent / pending / null-lat,
then group under the sorted coordinate-pair key (a thrown TypeError from
a null `lon` propagates as `.error`). -/
def arcStep (home : Option Geo) (gs : List ArcGroup) (c : Conn) :
    Except Unit (List ArcGroup) :=
  match effGeo c.src_geo home, effGeo c.dst_geo home with
  | none, _ => .ok gs
  | some _, none => .ok gs
  | some sg, some dg =>
    if sg.pending || dg.pending then .ok gs
    else
      match sg.lat, dg.lat with
      | some slat, some dlat => arcLocAdd gs sg dg slat dlat c
      | _, _ => .ok gs

/-- Location-mode `arcGroups`, fully recomputed from the store. -/
def arcGroups (conns : List Conn) (home : Option Geo) :
    Except Unit (List ArcGroup) :=
  conns.foldlM (arcStep home) []

/-- One `connections.forEach` iteration of the app-mode `appGroups`
useMemo: same skip filter, key = `processName + "-" + dstKey` (the
source longitude is never read in this mode). -/
def appStep (home : Option Geo) (gs : List ArcGroup) (c : Conn) :
    Except Unit (List ArcGroup) :=
  match effGeo c.src_geo home, effGeo c.dst_geo home with
  | none, _ => .ok gs
  | some _, none => .ok gs
  | some sg, some dg =>
    if sg.pending || dg.pending then .ok gs
    else
      match sg.lat, dg.lat with
      | some _, some dlat =>
          (match coordOf dlat dg.lon with
           | .error e => .error e
           | .ok dk =>
              .ok (addConn gs (.app (c.process.getD "Unknown") dk) sg dg
                (some (c.process.getD "Unknown")) c))
      | _, _ => .ok gs

/-- App-mode `appGroups`, fully recomputed from the store. -/
def appGroups (conns : List Conn) (home : Option Geo) :
    Except Unit (List ArcGroup) :=
  conns.foldlM (appStep home) []

deriving instance DecidableEq for Except

/-- The skip filter both aggregation modes apply to a connection:
effective geo absent on either side, or pending, or null latitude
(the code never tests the longitude here). -/
def skippedConn (home : Option Geo) (c : Conn) : Bool :=
  match effGeo c.src_geo home, effGeo c.dst_geo home with
  | none, _ => true
  | some _, none => true
  | some sg, some dg =>
      sg.pending || dg.pending || sg.lat.isNone || dg.lat.isNone

/-- Swap a connection's endpoints (ips and geos), as in the
direction-symmetry property. -/
def swapConn (c : Conn) : Conn :=
  { c with src_ip := c.dst_ip, dst_ip := c.src_ip,
           src_geo := c.dst_geo, dst_geo := c.src_geo }

/-- The image of an arc group under an endpoint swap of every member. -/
def mirrorGroup (g : ArcGroup) : ArcGroup :=
  { g with srcGeo := g.dstGeo, dstGeo := g.srcGeo,
           connections := g.connections.map swapConn }

/-- Look an arc group up by key. -/
def findGroup (gs : List ArcGroup) (k : ArcKey) : Option ArcGroup :=
  gs.find? (fun g => decide (g.key = k))

/-- The observable sums of a group: totalBytes, totalPackets, member
count. -/
def summaryOf (g : ArcGroup) : Nat × Nat × Nat :=
  (g.totalBytes, g.totalPackets, g.connections.length)

/-- Selection state: direct connection id and arc-group key filters. -/
structure SelState where
  selectedConnectionId : Option String := none
  selectedArcGroupKey : Option ArcKey := none
deriving DecidableEq

/-- `handleSelectConnection`: store the id (`conn?.id || null`). -/
def handleSelectConnection (s : SelState) (conn : Option Conn) : SelState :=
  { s with selectedConnectionId := conn.map (·.id) }

/-- `handleSelectArcGroup`: store the key and clear the connection id. -/
def handleSelectArcGroup (s : SelState) (g : Option ArcGroup) : SelState :=
  { s with selectedArcGroupKey := g.map (·.key),
           selectedConnectionId := none }

/-- `clearArcFilter`. -/
def clearArcFilter (s : SelState) : SelState :=
  { s with selectedArcGroupKey := none }

/-- One full flush cycle of the connection store alone: ingest a burst
into empty accumulators, then run the store part of the flush. -/
def cycleConns (conns : List Conn) (b : List PacketIn) : List Conn :=
  flushConnections conns (ingestBatch {} b).newConnections
    (ingestBatch {} b).updates

/-- Several flush cycles, the burst split arbitrarily across them. -/
def runCycles (conns : List Conn) (bs : List (List PacketIn)) : List Conn :=
  bs.foldl cycleConns conns

/-- A packet message is accumulated into the coalescing map iff it is
not a new flow and carries geo data on at least one endpoint. -/
def eligible (p : PacketIn) : Bool :=
  !p.new_flow && hasGeo p

/-- The sub-sequence of a burst that coalesces under pairing key `k`. -/
def batchFor (k : String × String) (ps : List PacketIn) : List PacketIn :=
  ps.filter (fun p => eligible p && decide (packetKey p = k))

/-- Total `length` field of a list of packet messages. -/
def sumLen (ps : List PacketIn) : Nat :=
  (ps.map (·.length)).sum

/-- The (bytes, packets) view of a pending delta. -/
def projUpd (d : Option Delta) : Option (Nat × Nat) :=
  d.map (fun u => (u.bytes, u.packets))

/-- Specification-side accumulator for the (bytes, packets) components
of a coalesced delta over a list of packets. -/
def bumpVal (cur : Option (Nat × Nat)) (ps : List PacketIn) :
    Option (Nat × Nat) :=
  ps.foldl
    (fun c p =>
      some (match c with
            | some (b, q) => (b + p.length, q + 1)
            | none => (p.length, 1)))
    cur

/-- `latLonToVector3(lat, lon, 1)`. -/
noncomputable def latLonToVector3 (lat lon : ℝ) : ℝ × ℝ × ℝ :=
  (-(Real.sin ((90 - lat) * (Real.pi / 180)) *
      Real.cos ((lon + 180) * (Real.pi / 180))),
   Real.cos ((90 - lat) * (Real.pi / 180)),
   Real.sin ((90 - lat) * (Real.pi / 180)) *
     Real.sin ((lon + 180) * (Real.pi / 180)))

/-- `Vector3.prototype.normalize` (divide by the length; Lean's `x / 0 =
0` convention only matters for the zero vector, which `latLonToVector3`
never produces). -/
noncomputable def vnormalize (v : ℝ × ℝ × ℝ) : ℝ × ℝ × ℝ :=
  (v.1 / Real.sqrt (v.1 ^ 2 + v.2.1 ^ 2 + v.2.2 ^ 2),
   v.2.1 / Real.sqrt (v.1 ^ 2 + v.2.1 ^ 2 + v.2.2 ^ 2),
   v.2.2 / Real.sqrt (v.1 ^ 2 + v.2.1 ^ 2 + v.2.2 ^ 2))

/-- `Vector3.prototype.angleTo`: `acos(clamp(dot / sqrt(len²·len²), -1,
1))`, with `π/2` for a zero denominator. -/
noncomputable def angleTo (a b : ℝ × ℝ × ℝ) : ℝ :=
  if Real.sqrt ((a.1 ^ 2 + a.2.1 ^ 2 + a.2.2 ^ 2) *
      (b.1 ^ 2 + b.2.1 ^ 2 + b.2.2 ^ 2)) = 0 then Real.pi / 2
  else Real.arccos (max (-1) (min 1
    ((a.1 * b.1 + a.2.1 * b.2.1 + a.2.2 * b.2.2) /
      Real.sqrt ((a.1 ^ 2 + a.2.1 ^ 2 + a.2.2 ^ 2) *
        (b.1 ^ 2 + b.2.1 ^ 2 + b.2.2 ^ 2)))))

/-- The `angle` computed at the top of `createArcCurve`. -/
noncomputable def arcAngle (startLat startLon endLat endLon : ℝ) : ℝ :=
  angleTo (vnormalize (latLonToVector3 startLat startLon))
    (vnormalize (latLonToVector3 endLat endLon))

/-- `createArcCurve` takes the two-control-point fallback iff
`angle < 0.01`. -/
def takesFallback (startLat startLon endLat endLon : ℝ) : Prop :=
  arcAngle startLat startLon endLat endLon < 1 / 100

/-- Planar projection `toXY`: equirectangular base position scaled by
zoom about the viewport center and translated by pan. -/
def toXY (lat lon w h z : ℚ) (pan : ℚ × ℚ) : ℚ × ℚ :=
  ((((lon + 180) / 360 * w) - w / 2) * z + w / 2 + pan.1,
   (((90 - lat) / 180 * h) - h / 2) * z + h / 2 + pan.2)

/-- `Math.sqrt(dx*dx + dy*dy) < r` compared in squared form (for `r > 0`
the two comparisons agree; all hit radii are positive). -/
def distLtB (mx my : ℚ) (p : ℚ × ℚ) (r : ℚ) : Bool :=
  decide ((mx - p.1) ^ 2 + (my - p.2) ^ 2 < r ^ 2)

/-- `const baseHitRadius = 18`. -/
def baseHitRadius : ℚ := 18

/-- `24 * Math.max(1, currentZoom * 0.5)`. -/
def nodeHitRadius (zoom : ℚ) : ℚ :=
  24 * max 1 (zoom * (1 / 2))

/-- `baseHitRadius * Math.max(1, currentZoom * 0.5)`. -/
def arcHitRadius (zoom : ℚ) : ℚ :=
  baseHitRadius * max 1 (zoom * (1 / 2))

/-- Rational stand-in for the `Math.sqrt` float call: only the arc
control-point height and the sample count depend on it, and no claim
depends on its precision. -/
def ratSqrt (q : ℚ) : ℚ :=
  ((Nat.sqrt (q * 1000000).floor.toNat : ℚ)) / 1000

/-- `Math.min(100, Math.max(20, Math.floor(screenDist / 10)))`. -/
def numSamples (screenDist : ℚ) : ℕ :=
  min 100 (max 20 (screenDist / 10).floor.toNat)

/-- Quadratic Bézier evaluation `mt*mt*p0 + 2*mt*t*p1 + t*t*p2`. -/
def bez (t p0 p1 p2 : ℚ) : ℚ :=
  (1 - t) ^ 2 * p0 + 2 * (1 - t) * t * p1 + t ^ 2 * p2

/-- One endpoint's node check; a missing coordinate yields NaN render
coordinates in the source, whose comparisons are all false. -/
def endpointHit (mx my w h z : ℚ) (pan : ℚ × ℚ) (glat glon : Option ℚ) :
    Bool :=
  match glat, glon with
  | some lat, some lon => distLtB mx my (toXY lat lon w h z pan) (nodeHitRadius z)
  | _, _ => false

/-- The sampled points of a group's quadratic arc (`t` from 0 to 1
inclusive in steps of `1 / numSamples`). -/
def arcSamples (w h z : ℚ) (pan : ℚ × ℚ) (slat slon dlat dlon : ℚ) :
    List (ℚ × ℚ) :=
  let src := toXY slat slon w h z pan
  let dst := toXY dlat dlon w h z pan
  let midX := (src.1 + dst.1) / 2
  let screenDist := ratSqrt ((dst.1 - src.1) ^ 2 + (dst.2 - src.2) ^ 2)
  let midY := min src.2 dst.2 - screenDist * (15 / 100) - 15
  let n := numSamples screenDist
  (List.range (n + 1)).map (fun i =>
    (bez ((i : ℚ) / (n : ℚ)) src.1 midX dst.1,
     bez ((i : ℚ) / (n : ℚ)) src.2 midY dst.2))

/-- Node part of one loop iteration of `hitTest` (checked first). -/
def nodeHit (mx my w h z : ℚ) (pan : ℚ × ℚ) (g : ArcGroup) : Bool :=
  endpointHit mx my w h z pan g.srcGeo.lat g.srcGeo.lon ||
  endpointHit mx my w h z pan g.dstGeo.lat g.dstGeo.lon

/-- Arc-sampling part of one loop iteration of `hitTest`. -/
def arcHit (mx my w h z : ℚ) (pan : ℚ × ℚ) (g : ArcGroup) : Bool :=
  match g.srcGeo.lat, g.srcGeo.lon, g.dstGeo.lat, g.dstGeo.lon with
  | some slat, some slon, some dlat, some dlon =>
      (arcSamples w h z pan slat slon dlat dlon).any
        (fun p => distLtB mx my p (arcHitRadius z))
  | _, _, _, _ => false

/-- One group either hits on a node or on an arc sample. -/
def groupHit (mx my w h z : ℚ) (pan : ℚ × ℚ) (g : ArcGroup) : Bool :=
  nodeHit mx my w h z pan g || arcHit mx my w h z pan g

/-- `hitTest`: the first group (in iteration order) whose node or arc
region contains the pointer, if any.  `handleClick` runs the same loop
and feeds the result to `onSelectArcGroup`. -/
def hitTest (mx my w h z : ℚ) (pan : ℚ × ℚ) :
    List ArcGroup → Option ArcGroup
  | [] => none
  | g :: rest =>
      if groupHit mx my w h z pan g then some g
      else hitTest mx my w h z pan rest

/-! Concrete sample data used by witnesses and counterexamples. -/

/-- A packet event with an expired timestamp. -/
def wPktOld : PktEv :=
  { id := "o", connKey := ("a", "b"), src_ip := "a", dst_ip := "b",
    timestamp := 100, size := 1 }

/-- A packet event that arrived just before a flush at t = 2000. -/
def wPktNew : PktEv :=
  { id := "n", connKey := ("a", "b"), src_ip := "a", dst_ip := "b",
    timestamp := 1999, size := 1 }

/-- A minimal connection record with a given `lastActive`. -/
def wConnAt (la : Int) : Conn :=
  { id := "c", src_ip := "a", dst_ip := "b", bytes := 0, packets := 0,
    lastActive := la }

/-- A capacity-overflowing insert batch in ascending-recency order. -/
def wBatch1001 : List Conn :=
  (List.range 1001).map (fun i => wConnAt i)

/-- A full store sorted by `lastActive` descending (999 down to 0). -/
def wPrev1000 : List Conn :=
  (List.range 1000).map (fun i => wConnAt (999 - Int.ofNat i))

/-- A sample arc group used by selection-state statements. -/
def wGroup : ArcGroup :=
  { key := .loc (0, 0) (1, 1), srcGeo := {}, dstGeo := {} }

/-- A resolved geo point. -/
def wGeoA : Geo := { lat := some 1, lon := some 2 }

/-- Another resolved geo point. -/
def wGeoB : Geo := { lat := some 3, lon := some 4 }

/-- The spec's example: first packet of the flow, `new_flow`, 100 B. -/
def wPktFlow1 : PacketIn :=
  { src_ip := "10.0.0.5", dst_ip := "93.184.216.34", src_geo := some wGeoA,
    dst_geo := some wGeoB, length := 100, new_flow := true, now := 10 }

/-- The spec's example: second packet of the same flow, 250 B. -/
def wPktFlow2 : PacketIn :=
  { src_ip := "10.0.0.5", dst_ip := "93.184.216.34", src_geo := some wGeoA,
    dst_geo := some wGeoB, length := 250, new_flow := false, now := 11 }

/-- A non-new-flow packet with no geo data on either endpoint. -/
def wPktNoGeo : PacketIn :=
  { src_ip := "a", dst_ip := "b", length := 100, new_flow := false, now := 5 }

/-- A non-new-flow packet with geo data, matching `wConnAt`'s key. -/
def wPktGeo : PacketIn :=
  { src_ip := "a", dst_ip := "b", src_geo := some wGeoA, length := 7,
    new_flow := false, now := 9 }

/-- A geo point with a latitude but no longitude. -/
def wGeoNoLon : Geo := { lat := some 1 }

/-- A pending geo point (no coordinates yet). -/
def wGeoPending : Geo := { pending := true }

/-- A fully groupable connection. -/
def wConnB : Conn :=
  { id := "cb", src_ip := "a", dst_ip := "b", src_geo := some wGeoA,
    dst_geo := some wGeoB, bytes := 5, packets := 2, lastActive := 0 }

/-- A connection whose source geo has a latitude but no longitude. -/
def wConnNoLon : Conn :=
  { id := "cn", src_ip := "a", dst_ip := "b", src_geo := some wGeoNoLon,
    dst_geo := some wGeoB, bytes := 5, packets := 1, lastActive := 0 }

/-- A connection whose source geo is still pending. -/
def wConnPending : Conn :=
  { id := "cp", src_ip := "a", dst_ip := "b", src_geo := some wGeoPending,
    dst_geo := some wGeoB, bytes := 1, packets := 1, lastActive := 0 }

/-- The location-mode group generated by `wConnB` alone. -/
def wGroupB : ArcGroup :=
  { key := .loc (1, 2) (3, 4), srcGeo := wGeoA, dstGeo := wGeoB,
    connections := [wConnB], totalBytes := 5, totalPackets := 2 }

/-- The app-mode group generated by `wConnNoLon` alone. -/
def wGroupNoLon : ArcGroup :=
  { key := .app "Unknown" (3, 4), srcGeo := wGeoNoLon, dstGeo := wGeoB,
    process := some "Unknown", connections := [wConnNoLon],
    totalBytes := 5, totalPackets := 1 }

/-- A geo point at the origin. -/
def wHitGeo1 : Geo := { lat := some 0, lon := some 0 }

/-- A geo point 0.01 degrees of longitude east of the origin. -/
def wHitGeo2 : Geo := { lat := some 0, lon := some (1 / 100) }

/-- A far-away geo point. -/
def wHitGeoFar : Geo := { lat := some 50, lon := some 100 }

/-- First arc group in iteration order, endpoint at the origin. -/
def wHitG1 : ArcGroup :=
  { key := .loc (0, 0) (1, 1), srcGeo := wHitGeo1, dstGeo := wHitGeoFar }

/-- Second arc group, endpoint 0.01° from the first group's endpoint. -/
def wHitG2 : ArcGroup :=
  { key := .loc (2, 2) (3, 3), srcGeo := wHitGeo2, dstGeo := wHitGeoFar,
    process := some "p2" }

/-- The render position of `wHitG2`'s source endpoint. -/
def wPointer : ℚ × ℚ := toXY 0 (1 / 100) 360 180 1 (0, 0)

/-!
## Theorems

Helper lemmas first, then one theorem per claim (with witness or
counterexample theorems where required).
-/

theorem charListLe_total (as bs : List Char)
    (h : charListLe as bs = false) : charListLe bs as = true := by
  induction as generalizing bs with
  | nil => simp [charListLe] at h
  | cons a as ih =>
      cases bs with
      | nil => rfl
      | cons b bs =>
          by_cases hab : a < b
          · simp [charListLe, hab] at h
          · by_cases hba : b < a
            · simp [charListLe, hba, lt_asymm hba]
            · simp [charListLe, hab, hba] at h
              simp [charListLe, hab, hba, ih bs h]

theorem charListLe_antisymm (as bs : List Char)
    (h1 : charListLe as bs = true) (h2 : charListLe bs as = true) :
    as = bs := by
  induction as generalizing bs with
  | nil =>
      cases bs with
      | nil => rfl
      | cons b bs => simp [charListLe] at h2
  | cons a as ih =>
      cases bs with
      | nil => simp [charListLe] at h1
      | cons b bs =>
          by_cases hab : a < b
          · simp [charListLe, hab, lt_asymm hab] at h2
          · by_cases hba : b < a
            · simp [charListLe, hab, hba] at h1
            · have hchar : a = b := le_antisymm (not_lt.mp hba) (not_lt.mp hab)
              simp [charListLe, hab, hba] at h1 h2
              rw [hchar, ih bs h1 h2]

theorem strLe_total (a b : String) (h : strLe a b = false) :
    strLe b a = true :=
  charListLe_total a.data b.data h

theorem strLe_antisymm (a b : String) (h1 : strLe a b = true)
    (h2 : strLe b a = true) : a = b := by
  have hd := charListLe_antisymm a.data b.data h1 h2
  cases a
  cases b
  exact congrArg String.mk (by simpa using hd)

theorem sortedPair_comm (a b : String) : sortedPair a b = sortedPair b a := by
  unfold sortedPair
  by_cases h : strLe a b = true
  · by_cases h' : strLe b a = true
    · simp [h, h', strLe_antisymm a b h h']
    · simp [h, h']
  · have h2 := strLe_total a b (by simpa using h)
    simp [h, h2]

theorem sortCoordPair_comm (a b : ℚ × ℚ) :
    sortCoordPair a b = sortCoordPair b a := by
  unfold sortCoordPair
  by_cases hab : coordLe a b <;> by_cases hba : coordLe b a <;>
    simp [hab, hba]
  · have hab1 : a = b := by
      rcases hab with h | ⟨h, h2⟩ <;> rcases hba with h' | ⟨h', h2'⟩
      · exact absurd h' (lt_asymm h)
      · exact absurd h (not_lt_of_le (le_of_eq h'))
      · exact absurd h' (not_lt_of_le (le_of_eq h))
      · exact Prod.ext h (le_antisymm h2 h2')
    simp [hab1]
  · exfalso
    rcases lt_trichotomy a.1 b.1 with h | h | h
    · exact hab (Or.inl h)
    · rcases le_total a.2 b.2 with h2 | h2
      · exact hab (Or.inr ⟨h, h2⟩)
      · exact hba (Or.inr ⟨h.symm, h2⟩)
    · exact hba (Or.inl h)

/-- C6: after every flush the Packet Event Window holds no event older
than the TTL relative to the flush time (assuming, as the arrival path
guarantees, that events pending at the flush arrived within the TTL);
the prune also runs when no new events are pending, with no assumption;
and the window stays within MAX_PACKET_EVENTS. -/
theorem packet_window_prune :
    (∀ (now : Int) (prev pend : List PktEv),
        (∀ e ∈ pend, now - PACKET_EVENT_TTL_MS < e.timestamp) →
        ∀ e ∈ flushPacketEvents now prev pend,
          now - PACKET_EVENT_TTL_MS < e.timestamp) ∧
    (∀ (now : Int) (prev : List PktEv),
        ∀ e ∈ flushPacketEvents now prev [],
          now - PACKET_EVENT_TTL_MS < e.timestamp) ∧
    (∀ (now : Int) (prev pend : List PktEv),
        prev.length ≤ MAX_PACKET_EVENTS →
        (flushPacketEvents now prev pend).length ≤ MAX_PACKET_EVENTS) := by
  have hfil : ∀ (now : Int) (prev : List PktEv),
      ∀ e ∈ prev.filter (fun e => now - PACKET_EVENT_TTL_MS < e.timestamp),
        now - PACKET_EVENT_TTL_MS < e.timestamp := by
    intro now prev e he
    have := (List.mem_filter.mp he).2
    exact of_decide_eq_true this
  refine ⟨?_, ?_, ?_⟩
  · intro now prev pend hpend e he
    by_cases hp : 0 < pend.length
    · simp only [flushPacketEvents, if_pos hp] at he
      rcases List.mem_append.mp (List.mem_of_mem_drop he) with h | h
      · exact hfil now prev e h
      · exact hpend e h
    · simp only [flushPacketEvents, if_neg hp] at he
      exact hfil now prev e he
  · intro now prev e he
    simp only [flushPacketEvents, List.length_nil, lt_irrefl, if_neg
      (by simp : ¬ (0 : Nat) < ([] : List PktEv).length)] at he
    exact hfil now prev e he
  · intro now prev pend hlen
    by_cases hp : 0 < pend.length
    · simp only [flushPacketEvents, if_pos hp, List.length_drop]
      omega
    · simp only [flushPacketEvents, if_neg hp]
      exact le_trans (List.length_filter_le _ _) hlen

/-- Witness for `packet_window_prune` at a concrete flush. -/
theorem packet_window_prune_witness :
    ((2000 : Int) - PACKET_EVENT_TTL_MS < wPktNew.timestamp) ∧
    (flushPacketEvents 2000 [wPktOld] [wPktNew]).length ≤ MAX_PACKET_EVENTS :=
  ⟨packet_window_prune.1 2000 [wPktOld] [wPktNew] (by decide) wPktNew (by decide),
   packet_window_prune.2.2 2000 [wPktOld] [wPktNew] (by decide)⟩

/-- C9 counterexample: selecting a Connection after selecting an
ArcGroup leaves both filters active at once — `handleSelectConnection`
does not clear the arc-group key, so the two filters are not mutually
exclusive. -/
theorem selection_not_exclusive_cex :
    ((handleSelectConnection (handleSelectArcGroup {} (some wGroup))
        (some (wConnAt 0))).selectedConnectionId.isSome = true) ∧
    ((handleSelectConnection (handleSelectArcGroup {} (some wGroup))
        (some (wConnAt 0))).selectedArcGroupKey.isSome = true) := by
  constructor <;> rfl

/-- C9 (amended): selecting an ArcGroup clears the direct connection id,
but selecting a Connection leaves the selected arc-group key unchanged,
so both filters can be active simultaneously. -/
theorem selection_arcgroup_clears_connection :
    (∀ (s : SelState) (g : Option ArcGroup),
        (handleSelectArcGroup s g).selectedConnectionId = none) ∧
    (∀ (s : SelState) (c : Option Conn),
        (handleSelectConnection s c).selectedArcGroupKey =
          s.selectedArcGroupKey) := by
  exact ⟨fun s g => rfl, fun s c => rfl⟩

set_option maxRecDepth 40000 in
/-- C2 counterexample: a single overflowing insert whose batch is in
ascending-recency order (as `pendingNewConnectionsRef` produces for
arrival order) evicts the most-recently-active record (`lastActive =
1000`) while retaining the least recent (`lastActive = 0`). -/
theorem store_retention_cex :
    (((insertConns wBatch1001 []).map Conn.lastActive).contains 1000 = false) ∧
    (((insertConns wBatch1001 []).map Conn.lastActive).contains 0 = true) ∧
    ((insertConns wBatch1001 []).length = MAX_CONNECTIONS) := by
  refine ⟨?_, ?_, ?_⟩ <;> decide

/-- C2 (amended): the Connection Store never exceeds MAX_CONNECTIONS
after any sequence of operations; under overflow the retained records
are the first MAX_CONNECTIONS entries of the batch-prepended list, and
when the store is sorted by recency, every inserted record is at least
as recent as every stored record and the batch fits within capacity,
the most-recently-active records are the ones retained. -/
theorem store_capacity_and_retention :
    (∀ (s : List Conn) (ops : List StoreOp), s.length ≤ MAX_CONNECTIONS →
        (applyStoreOps s ops).length ≤ MAX_CONNECTIONS) ∧
    (∀ (batch prev : List Conn),
        List.Pairwise (fun a b => b.lastActive ≤ a.lastActive) prev →
        (∀ c ∈ batch, ∀ p ∈ prev, p.lastActive ≤ c.lastActive) →
        batch.length ≤ MAX_CONNECTIONS →
        ∀ e ∈ batch ++ prev, e ∉ insertConns batch prev →
          ∀ r ∈ insertConns batch prev, e.lastActive ≤ r.lastActive) := by
  constructor
  · intro s ops h
    induction ops generalizing s with
    | nil => simpa [applyStoreOps] using h
    | cons op rest ih =>
        have hop : (applyStoreOp s op).length ≤ MAX_CONNECTIONS := by
          cases op with
          | insert batch =>
              simp only [applyStoreOp, insertConns, List.length_take]
              omega
          | deltas upds =>
              simpa [applyStoreOp, applyDeltas, sortByLastActive] using h
          | geoPatch ip geo => simpa [applyStoreOp] using h
          | processPatch a b c d => simpa [applyStoreOp] using h
          | clear => simp [applyStoreOp]
        exact ih _ hop
  · intro batch prev hsort hrec hlen e he hnot r hr
    have hsplit : insertConns batch prev =
        batch ++ prev.take (MAX_CONNECTIONS - batch.length) := by
      unfold insertConns
      rw [List.take_append_eq_append_take, List.take_of_length_le hlen]
    have hed : e ∈ (batch ++ prev).drop MAX_CONNECTIONS := by
      have hsplit2 := List.take_append_drop MAX_CONNECTIONS (batch ++ prev)
      have hmem := he
      rw [← hsplit2, List.mem_append] at hmem
      rcases hmem with h | h
      · exact absurd h hnot
      · exact h
    have hed' : e ∈ prev.drop (MAX_CONNECTIONS - batch.length) := by
      rw [List.drop_append_eq_append_drop, List.drop_eq_nil_of_le hlen] at hed
      simpa using hed
    rw [hsplit, List.mem_append] at hr
    rcases hr with hrB | hrT
    · exact hrec r hrB e (List.mem_of_mem_drop hed')
    · rw [← List.take_append_drop (MAX_CONNECTIONS - batch.length) prev]
        at hsort
      rcases List.pairwise_append.mp hsort with ⟨-, -, hcross⟩
      exact hcross r hrT e hed'

set_option maxRecDepth 40000 in
/-- Witness for `store_capacity_and_retention` at concrete inputs,
including a non-vacuous eviction. -/
theorem store_capacity_and_retention_witness :
    ((applyStoreOps [] [.insert wBatch1001]).length ≤ MAX_CONNECTIONS) ∧
    ((wConnAt 0).lastActive ≤ (wConnAt 1000).lastActive) :=
  ⟨store_capacity_and_retention.1 [] [.insert wBatch1001] (by decide),
   store_capacity_and_retention.2 [wConnAt 1000] wPrev1000
     (by
       unfold wPrev1000
       refine List.pairwise_map.mpr ?_
       refine (List.pairwise_lt_range 1000).imp ?_
       intro i j hij
       show (999 : ℤ) - (j : ℤ) ≤ 999 - (i : ℤ)
       omega)
     (by
       intro c hc p hp
       simp only [List.mem_singleton] at hc
       simp only [wPrev1000, List.mem_map, List.mem_range] at hp
       obtain ⟨i, hi, rfl⟩ := hp
       subst hc
       show (999 : ℤ) - (i : ℤ) ≤ 1000
       omega)
     (by decide)
     (wConnAt 0) (by decide) (by decide)
     (wConnAt 1000) (by decide)⟩

theorem lookupUpd_map_self (l : List ((String × String) × Delta))
    (k : String × String) (f : Delta → Delta) :
    lookupUpd (l.map (fun kv => if kv.1 = k then (kv.1, f kv.2) else kv)) k =
      (lookupUpd l k).map f := by
  induction l with
  | nil => rfl
  | cons kv rest ih =>
      by_cases hk : kv.1 = k
      · simp [lookupUpd, hk]
      · simp [lookupUpd, hk, ih]

theorem lookupUpd_map_other (l : List ((String × String) × Delta))
    (k k' : String × String) (f : Delta → Delta) (h : k' ≠ k) :
    lookupUpd (l.map (fun kv => if kv.1 = k then (kv.1, f kv.2) else kv)) k' =
      lookupUpd l k' := by
  have hne : ¬ k = k' := fun he => h he.symm
  induction l with
  | nil => rfl
  | cons kv rest ih =>
      by_cases hk : kv.1 = k
      · simp [lookupUpd, hk, hne, ih]
      · by_cases hk2 : kv.1 = k'
        · simp [lookupUpd, hk, hk2, h]
        · simp [lookupUpd, hk, hk2, ih]

theorem lookupUpd_append_single_self (l : List ((String × String) × Delta))
    (k : String × String) (d : Delta) (h : lookupUpd l k = none) :
    lookupUpd (l ++ [(k, d)]) k = some d := by
  induction l with
  | nil => simp [lookupUpd]
  | cons kv rest ih =>
      by_cases hk : kv.1 = k
      · rw [lookupUpd, if_pos hk] at h; exact absurd h (by simp)
      · rw [lookupUpd, if_neg hk] at h
        simpa [lookupUpd, hk] using ih h

theorem lookupUpd_append_single_other (l : List ((String × String) × Delta))
    (k k' : String × String) (d : Delta) (h : k' ≠ k) :
    lookupUpd (l ++ [(k, d)]) k' = lookupUpd l k' := by
  have hne : ¬ k = k' := fun he => h he.symm
  induction l with
  | nil => simp [lookupUpd, hne]
  | cons kv rest ih =>
      by_cases hk : kv.1 = k'
      · simp [lookupUpd, hk]
      · simp [lookupUpd, hk, ih]

theorem lookupUpd_bumpUpd_self (l : List ((String × String) × Delta))
    (k : String × String) (len : Nat) (now : Int) :
    lookupUpd (bumpUpd l k len now) k =
      some ((lookupUpd l k).elim
        { bytes := len, packets := 1, lastActive := now }
        (bumpDelta len now)) := by
  cases h : lookupUpd l k with
  | some u => simp [bumpUpd, h, lookupUpd_map_self]
  | none => simp [bumpUpd, h, lookupUpd_append_single_self l k _ h]

theorem lookupUpd_bumpUpd_other (l : List ((String × String) × Delta))
    (k k' : String × String) (len : Nat) (now : Int) (h : k' ≠ k) :
    lookupUpd (bumpUpd l k len now) k' = lookupUpd l k' := by
  cases h0 : lookupUpd l k with
  | some u => simp [bumpUpd, h0, lookupUpd_map_other _ _ _ _ h]
  | none => simp [bumpUpd, h0, lookupUpd_append_single_other _ _ _ _ h]

theorem ingestPacket_updates (st : Pending) (p : PacketIn) :
    (ingestPacket st p).updates =
      if eligible p then bumpUpd st.updates (packetKey p) p.length p.now
      else st.updates := by
  unfold ingestPacket eligible
  cases hnf : p.new_flow <;> cases hg : hasGeo p <;> simp [hnf, hg]

theorem ingestPacket_newConns (st : Pending) (p : PacketIn)
    (h : p.new_flow = false) :
    (ingestPacket st p).newConnections = st.newConnections := by
  unfold ingestPacket
  cases hg : hasGeo p <;> simp [h, hg]

theorem ingestBatch_newConns (ps : List PacketIn) (st : Pending)
    (h : ∀ p ∈ ps, p.new_flow = false) :
    (ingestBatch st ps).newConnections = st.newConnections := by
  induction ps generalizing st with
  | nil => rfl
  | cons p ps ih =>
      show (ingestBatch (ingestPacket st p) ps).newConnections = _
      rw [ih (ingestPacket st p) (fun q hq => h q (by simp [hq])),
        ingestPacket_newConns st p (h p (by simp))]

theorem batchFor_cons (k : String × String) (p : PacketIn)
    (ps : List PacketIn) :
    batchFor k (p :: ps) =
      if eligible p && decide (packetKey p = k) then p :: batchFor k ps
      else batchFor k ps := by
  simp only [batchFor, List.filter_cons]

theorem ingestBatch_updates (ps : List PacketIn) (st : Pending)
    (k : String × String) :
    projUpd (lookupUpd (ingestBatch st ps).updates k) =
      bumpVal (projUpd (lookupUpd st.updates k)) (batchFor k ps) := by
  induction ps generalizing st with
  | nil => rfl
  | cons p ps ih =>
      show projUpd (lookupUpd (ingestBatch (ingestPacket st p) ps).updates k) = _
      rw [ih, ingestPacket_updates, batchFor_cons]
      by_cases he : eligible p = true
      · by_cases hkk : packetKey p = k
        · rw [if_pos he, hkk, if_pos (by simp [he, hkk])]
          show _ = bumpVal
            (some (match projUpd (lookupUpd st.updates k) with
                   | some (b, q) => (b + p.length, q + 1)
                   | none => (p.length, 1)))
            (batchFor k ps)
          rw [lookupUpd_bumpUpd_self]
          cases h : lookupUpd st.updates k <;>
            simp [h, projUpd, bumpDelta, Option.elim]
        · rw [if_pos he, if_neg (by simp [hkk]),
            lookupUpd_bumpUpd_other _ _ _ _ _ (fun hh => hkk hh.symm)]
      · rw [if_neg he, if_neg (by simp [he])]

theorem bumpVal_some (ps : List PacketIn) : ∀ b q : Nat,
    bumpVal (some (b, q)) ps = some (b + sumLen ps, q + ps.length) := by
  induction ps with
  | nil => intro b q; simp [bumpVal, sumLen]
  | cons p ps ih =>
      intro b q
      show bumpVal (some (b + p.length, q + 1)) ps = _
      rw [ih]
      simp only [sumLen, List.map_cons, List.sum_cons, List.length_cons,
        Option.some.injEq, Prod.mk.injEq]
      constructor <;> omega

theorem bumpVal_none_cons (ps : List PacketIn) (p : PacketIn) :
    bumpVal none (p :: ps) = some (p.length + sumLen ps, 1 + ps.length) := by
  show bumpVal (some (p.length, 1)) ps = _
  rw [bumpVal_some]

theorem cycleConns_coalesce (b : List PacketIn) (conns : List Conn)
    (hb : ∀ p ∈ b, p.new_flow = false ∧ hasGeo p = true)
    (c : Conn) (hc : c ∈ conns) :
    ∃ c' ∈ cycleConns conns b,
      c'.id = c.id ∧ c'.src_ip = c.src_ip ∧ c'.dst_ip = c.dst_ip ∧
      c'.bytes = c.bytes + sumLen (batchFor (connKey c) b) ∧
      c'.packets = c.packets + (batchFor (connKey c) b).length := by
  have hnew : (ingestBatch ({} : Pending) b).newConnections = [] :=
    ingestBatch_newConns b {} (fun p hp => (hb p hp).1)
  have hupd := ingestBatch_updates b ({} : Pending) (connKey c)
  have hnoneInit : projUpd (lookupUpd (({} : Pending)).updates (connKey c)) =
      none := rfl
  rw [hnoneInit] at hupd
  unfold cycleConns flushConnections
  rw [hnew]
  simp only [List.length_nil, lt_irrefl, if_false]
  by_cases hu : (ingestBatch ({} : Pending) b).updates = []
  · have hbf : batchFor (connKey c) b = [] := by
      cases hbf : batchFor (connKey c) b with
      | nil => rfl
      | cons p l =>
          rw [hu, hbf, bumpVal_none_cons] at hupd
          exact absurd hupd (by simp [lookupUpd, projUpd])
    rw [if_neg (by simp [hu])]
    exact ⟨c, hc, rfl, rfl, rfl, by simp [hbf, sumLen], by simp [hbf]⟩
  · rw [if_pos (by cases h : (ingestBatch ({} : Pending) b).updates with
      | nil => exact absurd h hu
      | cons a l => simp [h])]
    refine ⟨applyUpd (ingestBatch ({} : Pending) b).updates c, ?_, ?_⟩
    · simp only [applyDeltas, sortByLastActive, List.mem_insertionSort]
      exact List.mem_map.mpr ⟨c, hc, rfl⟩
    · unfold applyUpd
      cases h : lookupUpd (ingestBatch ({} : Pending) b).updates (connKey c) with
      | none =>
          have hbf : batchFor (connKey c) b = [] := by
            cases hbf : batchFor (connKey c) b with
            | nil => rfl
            | cons p l =>
                rw [h, hbf, bumpVal_none_cons] at hupd
                exact absurd hupd (by simp [projUpd])
          exact ⟨rfl, rfl, rfl, by simp [hbf, sumLen], by simp [hbf]⟩
      | some u =>
          cases hbf : batchFor (connKey c) b with
          | nil =>
              rw [h, hbf] at hupd
              exact absurd hupd (by simp [projUpd, bumpVal])
          | cons p l =>
              rw [h, hbf, bumpVal_none_cons] at hupd
              simp only [projUpd, Option.map_some', Option.some.injEq,
                Prod.mk.injEq] at hupd
              refine ⟨rfl, rfl, rfl, ?_, ?_⟩
              · show c.bytes + u.bytes = _
                rw [hupd.1]
                simp [sumLen]
              · show c.packets + u.packets = _
                rw [hupd.2]
                simp [Nat.add_comm]

theorem runCycles_coalesce (bs : List (List PacketIn)) (conns : List Conn)
    (hb : ∀ p ∈ bs.flatten, p.new_flow = false ∧ hasGeo p = true)
    (c : Conn) (hc : c ∈ conns) :
    ∃ c' ∈ runCycles conns bs,
      c'.id = c.id ∧ c'.src_ip = c.src_ip ∧ c'.dst_ip = c.dst_ip ∧
      c'.bytes = c.bytes + sumLen (batchFor (connKey c) bs.flatten) ∧
      c'.packets = c.packets + (batchFor (connKey c) bs.flatten).length := by
  induction bs generalizing conns c with
  | nil => exact ⟨c, hc, rfl, rfl, rfl, by simp [batchFor, sumLen], by
      simp [batchFor]⟩
  | cons b bs ih =>
      have hb1 : ∀ p ∈ b, p.new_flow = false ∧ hasGeo p = true := by
        intro p hp
        exact hb p (by
          rw [List.flatten_cons]
          exact List.mem_append.mpr (Or.inl hp))
      have hb2 : ∀ p ∈ bs.flatten, p.new_flow = false ∧ hasGeo p = true := by
        intro p hp
        exact hb p (by
          rw [List.flatten_cons]
          exact List.mem_append.mpr (Or.inr hp))
      obtain ⟨c1, hc1, hid, hsrc, hdst, hbytes, hpk⟩ :=
        cycleConns_coalesce b conns hb1 c hc
      have hkey : connKey c1 = connKey c := by
        unfold connKey; rw [hsrc, hdst]
      obtain ⟨c2, hc2, hid2, hsrc2, hdst2, hbytes2, hpk2⟩ :=
        ih (cycleConns conns b) hb2 c1 hc1
      refine ⟨c2, hc2, hid2.trans hid, hsrc2.trans hsrc, hdst2.trans hdst,
        ?_, ?_⟩
      · rw [hbytes2, hkey, hbytes]
        simp only [List.flatten_cons, batchFor, List.filter_append, sumLen,
          List.map_append, List.sum_append]
        omega
      · rw [hpk2, hkey, hpk]
        simp only [List.flatten_cons, batchFor, List.filter_append,
          List.length_append]
        omega

/-- C1 counterexample: a non-new-flow packet event carrying no geo data
on either endpoint matches an existing Connection's pairing key but is
never accumulated (`else if (data.src_geo || data.dst_geo)` fails), so
the Connection's `bytes` do not increase by its length. -/
theorem conn_coalescing_cex :
    (wPktNoGeo.new_flow = false) ∧
    (packetKey wPktNoGeo = connKey (wConnAt 0)) ∧
    (wPktNoGeo.length = 100) ∧
    (cycleConns [wConnAt 0] [wPktNoGeo] = [wConnAt 0]) ∧
    ((wConnAt 0).bytes = 0) := by
  refine ⟨rfl, by decide, rfl, by decide, rfl⟩

/-- C1 (amended): for every sequence of non-new-flow packet events that
carry geo data on at least one endpoint, however the sequence is split
across flush cycles, every stored Connection's `bytes`/`packets` grow by
exactly the total length and count of the events matching its pairing
key; and the spec's two-packet example yields one Connection with
`bytes = 350`, `packets = 2`. -/
theorem conn_coalescing :
    (∀ (bs : List (List PacketIn)) (conns : List Conn),
        (∀ p ∈ bs.flatten, p.new_flow = false ∧ hasGeo p = true) →
        ∀ c ∈ conns, ∃ c' ∈ runCycles conns bs,
          c'.id = c.id ∧ c'.src_ip = c.src_ip ∧ c'.dst_ip = c.dst_ip ∧
          c'.bytes = c.bytes + sumLen (batchFor (connKey c) bs.flatten) ∧
          c'.packets = c.packets + (batchFor (connKey c) bs.flatten).length) ∧
    ((cycleConns [] [wPktFlow1, wPktFlow2]).map
        (fun c => (c.bytes, c.packets)) = [(350, 2)]) := by
  constructor
  · intro bs conns hb c hc
    exact runCycles_coalesce bs conns hb c hc
  · decide

/-- Witness for `conn_coalescing`: one eligible 7-byte packet, split into
a single flush cycle, applied to a one-record store. -/
theorem conn_coalescing_witness :
    ∃ c' ∈ runCycles [wConnAt 0] [[wPktGeo]],
      c'.id = (wConnAt 0).id ∧ c'.src_ip = (wConnAt 0).src_ip ∧
      c'.dst_ip = (wConnAt 0).dst_ip ∧
      c'.bytes = (wConnAt 0).bytes +
        sumLen (batchFor (connKey (wConnAt 0)) [[wPktGeo]].flatten) ∧
      c'.packets = (wConnAt 0).packets +
        (batchFor (connKey (wConnAt 0)) [[wPktGeo]].flatten).length :=
  conn_coalescing.1 [[wPktGeo]] [wConnAt 0] (by decide) (wConnAt 0) (by decide)

/-- C10: applying a flush whose coalesced deltas match no stored
Connection leaves the store's records unchanged (up to the re-sort
permutation): nothing is created, every stored record survives
identically, and the pending stats are added to the global counters
regardless. -/
theorem delta_no_match_noop :
    (∀ (prev : List Conn) (upds : List ((String × String) × Delta)),
        (∀ c ∈ prev, lookupUpd upds (connKey c) = none) →
        (flushConnections prev [] upds).Perm prev ∧
        (∀ c ∈ prev, c ∈ flushConnections prev [] upds) ∧
        (∀ c ∈ flushConnections prev [] upds, c ∈ prev)) ∧
    (∀ s p : Stats, flushStats s p =
        { packets := s.packets + p.packets, flows := s.flows + p.flows,
          bytes := s.bytes + p.bytes }) := by
  constructor
  · intro prev upds hnone
    have hmap : prev.map (applyUpd upds) = prev := by
      induction prev with
      | nil => rfl
      | cons c rest ih =>
          rw [List.map_cons, ih (fun x hx => hnone x (by simp [hx]))]
          have : applyUpd upds c = c := by
            unfold applyUpd
            rw [hnone c (by simp)]
          rw [this]
    have hperm : (flushConnections prev [] upds).Perm prev := by
      unfold flushConnections
      simp only [List.length_nil, lt_irrefl, if_false]
      by_cases hu : 0 < upds.length
      · rw [if_pos hu]
        unfold applyDeltas sortByLastActive
        rw [hmap]
        exact List.perm_insertionSort _ prev
      · rw [if_neg hu]
    exact ⟨hperm, fun c hcm => (hperm.mem_iff).mpr hcm,
      fun c hcm => (hperm.mem_iff).mp hcm⟩
  · intro s p
    unfold flushStats
    by_cases h : 0 < p.packets ∨ 0 < p.flows ∨ 0 < p.bytes
    · rw [if_pos h]
    · rw [if_neg h]
      push_neg at h
      obtain ⟨h1, h2, h3⟩ := h
      cases s
      simp only [Stats.mk.injEq]
      omega

/-- Witness for `delta_no_match_noop`: a one-record store and a delta
keyed to an absent pair. -/
theorem delta_no_match_noop_witness :
    ((flushConnections [wConnAt 0] []
        [(("x", "y"), { bytes := 5, packets := 1, lastActive := 3 })]).Perm
      [wConnAt 0]) ∧
    (flushStats { packets := 1, flows := 0, bytes := 2 }
        { packets := 3, flows := 1, bytes := 4 } =
      { packets := 4, flows := 1, bytes := 6 }) :=
  ⟨(delta_no_match_noop.1 [wConnAt 0]
      [(("x", "y"), { bytes := 5, packets := 1, lastActive := 3 })]
      (by decide)).1,
   delta_no_match_noop.2 { packets := 1, flows := 0, bytes := 2 }
     { packets := 3, flows := 1, bytes := 4 }⟩

theorem hitTest_eq_none_iff (mx my w h z : ℚ) (pan : ℚ × ℚ) :
    ∀ gs : List ArcGroup, hitTest mx my w h z pan gs = none ↔
      ∀ g ∈ gs, groupHit mx my w h z pan g = false := by
  intro gs
  induction gs with
  | nil => simp [hitTest]
  | cons g rest ih =>
      by_cases hg : groupHit mx my w h z pan g = true
      · simp [hitTest, hg]
      · simp only [Bool.not_eq_true] at hg
        simp [hitTest, hg, ih]

theorem nodeHitRadius_one : nodeHitRadius 1 = 24 := by
  unfold nodeHitRadius
  rw [max_eq_left (by norm_num)]
  norm_num

theorem nodeHitRadius_ge (z : ℚ) : 24 ≤ nodeHitRadius z := by
  unfold nodeHitRadius
  calc (24 : ℚ) = 24 * 1 := by norm_num
  _ ≤ 24 * max 1 (z * (1 / 2)) := by
      have := le_max_left (1 : ℚ) (z * (1 / 2))
      nlinarith

/-- C5 counterexample: with two overlapping groups, a pointer exactly at
the second group's endpoint render position is returned as the *first*
group (whose node-hit region also contains it), not "that node's group". -/
theorem hit_test_cex :
    (wPointer = toXY 0 (1 / 100) 360 180 1 (0, 0)) ∧
    (wHitG2.srcGeo.lat = some 0 ∧ wHitG2.srcGeo.lon = some (1 / 100)) ∧
    (hitTest wPointer.1 wPointer.2 360 180 1 (0, 0) [wHitG1, wHitG2] =
      some wHitG1) ∧
    (wHitG1 ≠ wHitG2) := by
  refine ⟨rfl, ⟨rfl, rfl⟩, ?_, ?_⟩
  · have hd : distLtB wPointer.1 wPointer.2 (toXY 0 0 360 180 1 (0, 0))
        (nodeHitRadius 1) = true := by
      simp only [distLtB, decide_eq_true_eq, nodeHitRadius_one, wPointer,
        toXY]
      norm_num
    have hnode : nodeHit wPointer.1 wPointer.2 360 180 1 (0, 0) wHitG1 =
        true := by
      unfold nodeHit
      show (distLtB wPointer.1 wPointer.2 (toXY 0 0 360 180 1 (0, 0))
          (nodeHitRadius 1) || _) = true
      rw [hd]
      rfl
    show (if groupHit wPointer.1 wPointer.2 360 180 1 (0, 0) wHitG1 = true
        then some wHitG1
        else hitTest wPointer.1 wPointer.2 360 180 1 (0, 0) [wHitG2]) =
      some wHitG1
    rw [show groupHit wPointer.1 wPointer.2 360 180 1 (0, 0) wHitG1 =
        true from by unfold groupHit; rw [hnode]; rfl]
    rw [if_pos rfl]
  · intro hcontr
    have := congrArg ArcGroup.process hcontr
    simp [wHitG1, wHitG2] at this

/-- C5 (amended): (i) a pointer exactly at any group's endpoint render
position makes hit-testing return *some* group at every zoom (the first
matching group in iteration order, which is that node's group only when
no earlier group's region also contains the pointer — see the
counterexample); (ii) the first group with a hit is the one returned;
(iii) the node hit radius is `24 * max(1, zoom*0.5)` — 48 px at zoom 4,
never below 24 px; (iv) a pointer at least the node radius from every
endpoint and at least the arc radius from every curve sample of every
group returns no group. -/
theorem hit_test_spec :
    (∀ (gs : List ArcGroup) (w h z : ℚ) (pan : ℚ × ℚ) (g : ArcGroup)
        (lat lon : ℚ),
        g ∈ gs →
        ((g.srcGeo.lat = some lat ∧ g.srcGeo.lon = some lon) ∨
         (g.dstGeo.lat = some lat ∧ g.dstGeo.lon = some lon)) →
        (hitTest (toXY lat lon w h z pan).1 (toXY lat lon w h z pan).2
          w h z pan gs).isSome = true) ∧
    (∀ (pre post : List ArcGroup) (mx my w h z : ℚ) (pan : ℚ × ℚ)
        (g : ArcGroup),
        (∀ g' ∈ pre, groupHit mx my w h z pan g' = false) →
        groupHit mx my w h z pan g = true →
        hitTest mx my w h z pan (pre ++ g :: post) = some g) ∧
    ((nodeHitRadius 4 = 48) ∧ ∀ z : ℚ, 24 ≤ nodeHitRadius z) ∧
    (∀ (gs : List ArcGroup) (mx my w h z : ℚ) (pan : ℚ × ℚ),
        (∀ g ∈ gs, ∀ lat lon : ℚ,
          ((g.srcGeo.lat = some lat ∧ g.srcGeo.lon = some lon) ∨
           (g.dstGeo.lat = some lat ∧ g.dstGeo.lon = some lon)) →
          (nodeHitRadius z) ^ 2 ≤
            (mx - (toXY lat lon w h z pan).1) ^ 2 +
            (my - (toXY lat lon w h z pan).2) ^ 2) →
        (∀ g ∈ gs, ∀ slat slon dlat dlon : ℚ,
          g.srcGeo.lat = some slat → g.srcGeo.lon = some slon →
          g.dstGeo.lat = some dlat → g.dstGeo.lon = some dlon →
          ∀ p ∈ arcSamples w h z pan slat slon dlat dlon,
            (arcHitRadius z) ^ 2 ≤ (mx - p.1) ^ 2 + (my - p.2) ^ 2) →
        hitTest mx my w h z pan gs = none) := by
  refine ⟨?_, ?_, ⟨?_, nodeHitRadius_ge⟩, ?_⟩
  · intro gs w h z pan g lat lon hg hend
    have hhit : groupHit (toXY lat lon w h z pan).1
        (toXY lat lon w h z pan).2 w h z pan g = true := by
      have hdist : distLtB (toXY lat lon w h z pan).1
          (toXY lat lon w h z pan).2 (toXY lat lon w h z pan)
          (nodeHitRadius z) = true := by
        simp only [distLtB, decide_eq_true_eq]
        have hr : (0 : ℚ) < nodeHitRadius z :=
          lt_of_lt_of_le (by norm_num) (nodeHitRadius_ge z)
        nlinarith
      unfold groupHit nodeHit endpointHit
      rcases hend with ⟨h1, h2⟩ | ⟨h1, h2⟩
      · rw [h1, h2]
        simp [hdist]
      · rw [h1, h2]
        simp [hdist]
    cases hh : hitTest (toXY lat lon w h z pan).1
        (toXY lat lon w h z pan).2 w h z pan gs with
    | none =>
        have := ((hitTest_eq_none_iff _ _ _ _ _ _ gs).mp hh) g hg
        rw [this] at hhit
        exact absurd hhit (by simp)
    | some g' => rfl
  · intro pre
    induction pre with
    | nil =>
        intro post mx my w h z pan g hpre hg
        simp [hitTest, hg]
    | cons p rest ih =>
        intro post mx my w h z pan g hpre hg
        have hp : groupHit mx my w h z pan p = false := hpre p (by simp)
        show (if groupHit mx my w h z pan p = true then some p
          else hitTest mx my w h z pan (rest ++ g :: post)) = some g
        rw [hp]
        simp only [Bool.false_eq_true, if_false]
        exact ih post mx my w h z pan g
          (fun g' hg' => hpre g' (by simp [hg'])) hg
  · unfold nodeHitRadius
    rw [max_eq_right (by norm_num)]
    norm_num
  · intro gs mx my w h z pan hnodes harcs
    rw [hitTest_eq_none_iff]
    intro g hg
    have hn : nodeHit mx my w h z pan g = false := by
      unfold nodeHit endpointHit
      have hsrc : (match g.srcGeo.lat, g.srcGeo.lon with
          | some lat, some lon =>
              distLtB mx my (toXY lat lon w h z pan) (nodeHitRadius z)
          | _, _ => false) = false := by
        cases h1 : g.srcGeo.lat with
        | none => rfl
        | some lat =>
            cases h2 : g.srcGeo.lon with
            | none => rfl
            | some lon =>
                simp only [distLtB, decide_eq_false_iff_not, not_lt]
                exact hnodes g hg lat lon (Or.inl ⟨h1, h2⟩)
      have hdst : (match g.dstGeo.lat, g.dstGeo.lon with
          | some lat, some lon =>
              distLtB mx my (toXY lat lon w h z pan) (nodeHitRadius z)
          | _, _ => false) = false := by
        cases h1 : g.dstGeo.lat with
        | none => rfl
        | some lat =>
            cases h2 : g.dstGeo.lon with
            | none => rfl
            | some lon =>
                simp only [distLtB, decide_eq_false_iff_not, not_lt]
                exact hnodes g hg lat lon (Or.inr ⟨h1, h2⟩)
      rw [hsrc, hdst]
      rfl
    have ha : arcHit mx my w h z pan g = false := by
      unfold arcHit
      cases h1 : g.srcGeo.lat with
      | none => rfl
      | some slat =>
          cases h2 : g.srcGeo.lon with
          | none => rfl
          | some slon =>
              cases h3 : g.dstGeo.lat with
              | none => rfl
              | some dlat =>
                  cases h4 : g.dstGeo.lon with
                  | none => rfl
                  | some dlon =>
                      simp only [List.any_eq_false]
                      intro p hp
                      simp only [distLtB, decide_eq_true_eq, not_lt]
                      exact harcs g hg slat slon dlat dlon h1 h2 h3 h4 p hp
    unfold groupHit
    rw [hn, ha]
    rfl

/-- Witness for `hit_test_spec` at a concrete endpoint and the empty
group set. -/
theorem hit_test_spec_witness :
    ((hitTest (toXY 0 0 360 180 1 (0, 0)).1 (toXY 0 0 360 180 1 (0, 0)).2
        360 180 1 (0, 0) [wHitG1]).isSome = true) ∧
    (hitTest 5 5 360 180 1 (0, 0) [] = none) :=
  ⟨hit_test_spec.1 [wHitG1] 360 180 1 (0, 0) wHitG1 0 0 (by simp)
     (Or.inl ⟨rfl, rfl⟩),
   hit_test_spec.2.2.2 [] 5 5 360 180 1 (0, 0) (by simp) (by simp)⟩

theorem mem_addConn (gs : List ArcGroup) (k : ArcKey) (sg dg : Geo)
    (pr : Option String) (x : Conn) (g' : ArcGroup)
    (hg' : g' ∈ addConn gs k sg dg pr x) (y : Conn)
    (hy : y ∈ g'.connections) :
    (∃ g ∈ gs, y ∈ g.connections) ∨ y = x := by
  unfold addConn at hg'
  rcases List.mem_map.mp hg' with ⟨g0, hg0, rfl⟩
  by_cases hif : gs.any (fun g => decide (g.key = k)) = true
  · rw [if_pos hif] at hg0
    by_cases hk : g0.key = k
    · simp only [if_pos hk] at hy
      rcases List.mem_append.mp hy with h | h
      · exact Or.inl ⟨g0, hg0, h⟩
      · exact Or.inr (List.mem_singleton.mp h)
    · simp only [if_neg hk] at hy
      exact Or.inl ⟨g0, hg0, hy⟩
  · rw [if_neg hif] at hg0
    rcases List.mem_append.mp hg0 with hg0 | hg0
    · by_cases hk : g0.key = k
      · simp only [if_pos hk] at hy
        rcases List.mem_append.mp hy with h | h
        · exact Or.inl ⟨g0, hg0, h⟩
        · exact Or.inr (List.mem_singleton.mp h)
      · simp only [if_neg hk] at hy
        exact Or.inl ⟨g0, hg0, hy⟩
    · have hg0' : g0 = { key := k, srcGeo := sg, dstGeo := dg, process := pr } :=
        List.mem_singleton.mp hg0
      subst hg0'
      simp only [if_pos rfl] at hy
      simp only [List.nil_append] at hy
      exact Or.inr (List.mem_singleton.mp hy)

theorem arcStep_skipped (home : Option Geo) (gs : List ArcGroup) (c : Conn)
    (h : skippedConn home c = true) : arcStep home gs c = .ok gs := by
  unfold skippedConn at h
  unfold arcStep
  split
  · rfl
  · rfl
  · rename_i sg dg heq1 heq2
    simp only [heq1, heq2, Bool.or_eq_true, Option.isNone_iff_eq_none] at h
    split
    · rfl
    · rename_i hcond
      split
      · rename_i slat dlat heq3 heq4
        rw [heq3, heq4] at h
        simp only [Bool.or_eq_true] at hcond
        rcases h with ((h | h) | h) | h
        · exact absurd (Or.inl h) hcond
        · exact absurd (Or.inr h) hcond
        · exact absurd h (by simp)
        · exact absurd h (by simp)
      · rfl

theorem appStep_skipped (home : Option Geo) (gs : List ArcGroup) (c : Conn)
    (h : skippedConn home c = true) : appStep home gs c = .ok gs := by
  unfold skippedConn at h
  unfold appStep
  split
  · rfl
  · rfl
  · rename_i sg dg heq1 heq2
    simp only [heq1, heq2, Bool.or_eq_true, Option.isNone_iff_eq_none] at h
    split
    · rfl
    · rename_i hcond
      split
      · rename_i slat dlat heq3 heq4
        rw [heq3, heq4] at h
        simp only [Bool.or_eq_true] at hcond
        rcases h with ((h | h) | h) | h
        · exact absurd (Or.inl h) hcond
        · exact absurd (Or.inr h) hcond
        · exact absurd h (by simp)
        · exact absurd h (by simp)
      · rfl

theorem arcStep_connections (home : Option Geo) (acc : List ArcGroup)
    (x : Conn) (acc1 : List ArcGroup)
    (h : arcStep home acc x = .ok acc1) (g' : ArcGroup) (hg' : g' ∈ acc1)
    (y : Conn) (hy : y ∈ g'.connections) :
    (∃ g ∈ acc, y ∈ g.connections) ∨ y = x := by
  unfold arcStep at h
  split at h
  · injection h with h; subst h; exact Or.inl ⟨g', hg', hy⟩
  · injection h with h; subst h; exact Or.inl ⟨g', hg', hy⟩
  · split at h
    · injection h with h; subst h; exact Or.inl ⟨g', hg', hy⟩
    · split at h
      · unfold arcLocAdd at h
        split at h
        · exact absurd h (by simp)
        · split at h
          · exact absurd h (by simp)
          · injection h with h
            subst h
            exact mem_addConn _ _ _ _ _ _ g' hg' y hy
      · injection h with h; subst h; exact Or.inl ⟨g', hg', hy⟩

theorem appStep_connections (home : Option Geo) (acc : List ArcGroup)
    (x : Conn) (acc1 : List ArcGroup)
    (h : appStep home acc x = .ok acc1) (g' : ArcGroup) (hg' : g' ∈ acc1)
    (y : Conn) (hy : y ∈ g'.connections) :
    (∃ g ∈ acc, y ∈ g.connections) ∨ y = x := by
  unfold appStep at h
  split at h
  · injection h with h; subst h; exact Or.inl ⟨g', hg', hy⟩
  · injection h with h; subst h; exact Or.inl ⟨g', hg', hy⟩
  · split at h
    · injection h with h; subst h; exact Or.inl ⟨g', hg', hy⟩
    · split at h
      · split at h
        · exact absurd h (by simp)
        · injection h with h
          subst h
          exact mem_addConn _ _ _ _ _ _ g' hg' y hy
      · injection h with h; subst h; exact Or.inl ⟨g', hg', hy⟩

theorem foldlM_conn_excluded
    (step : List ArcGroup → Conn → Except Unit (List ArcGroup)) (c : Conn)
    (hskip : ∀ acc, step acc c = .ok acc)
    (hconn : ∀ acc x acc1, step acc x = .ok acc1 →
        ∀ g' ∈ acc1, ∀ y ∈ g'.connections,
          (∃ g ∈ acc, y ∈ g.connections) ∨ y = x) :
    ∀ (l : List Conn) (acc gs : List ArcGroup),
      (∀ g ∈ acc, c ∉ g.connections) →
      l.foldlM step acc = .ok gs → ∀ g ∈ gs, c ∉ g.connections := by
  intro l
  induction l with
  | nil =>
      intro acc gs hacc h
      rw [List.foldlM_nil] at h
      injection h with h
      subst h
      exact hacc
  | cons x l ih =>
      intro acc gs hacc h
      rw [List.foldlM_cons] at h
      cases hstep : step acc x with
      | error e =>
          rw [hstep] at h
          exact absurd h (by simp [Bind.bind, Except.bind])
      | ok acc1 =>
          rw [hstep] at h
          have h' : l.foldlM step acc1 = .ok gs := h
          refine ih acc1 gs ?_ h'
          intro g hg hcy
          rcases hconn acc x acc1 hstep g hg c hcy with ⟨g0, hg0, hcg0⟩ | rfl
          · exact hacc g0 hg0 hcg0
          · have hae : Except.ok (ε := Unit) acc1 = .ok acc := by
              rw [← hstep, hskip acc]
            injection hae with hae
            subst hae
            exact hacc g hg hcy

theorem toFixed1_natCast (n : ℕ) : toFixed1 (n : ℚ) = n := by
  unfold toFixed1
  rw [show ((n : ℚ) * 10) = (((10 * n : ℕ) : ℚ)) by push_cast; ring]
  rw [round_natCast]
  push_cast
  rw [mul_comm]
  exact mul_div_cancel_right₀ _ (by norm_num)

theorem toFixed1_one : toFixed1 (1 : ℚ) = 1 := by
  simpa using toFixed1_natCast 1

theorem toFixed1_two : toFixed1 (2 : ℚ) = 2 := by
  simpa using toFixed1_natCast 2

theorem toFixed1_three : toFixed1 (3 : ℚ) = 3 := by
  simpa using toFixed1_natCast 3

theorem toFixed1_four : toFixed1 (4 : ℚ) = 4 := by
  simpa using toFixed1_natCast 4

theorem coordLe_wB : coordLe ((1 : ℚ), 2) (3, 4) :=
  Or.inl (by norm_num)

/-- C3 counterexample: a connection whose effective source geo has a
latitude but no longitude (so "missing coordinates" in the claim's
sense) is not skipped by the app-mode aggregation — it becomes a full
member of an ArcGroup, because the skip filter only tests `lat` and app
mode never reads the source longitude. -/
theorem arc_filter_cex :
    (wConnNoLon.src_geo = some wGeoNoLon) ∧ (wGeoNoLon.lon = none) ∧
    (wGeoNoLon.pending = false) ∧
    (appGroups [wConnNoLon] none = .ok [wGroupNoLon]) ∧
    (wConnNoLon ∈ wGroupNoLon.connections) := by
  refine ⟨rfl, rfl, rfl, ?_, List.mem_singleton.mpr rfl⟩
  simp [appGroups, List.foldlM_cons, List.foldlM_nil, appStep, effGeo,
    wConnNoLon, wGeoNoLon, wGeoB, coordOf, addConn, wGroupNoLon,
    toFixed1_three, toFixed1_four, Bind.bind, Except.bind, pure, Except.pure]

/-- C3 (amended): a connection skipped by the aggregation filter —
effective geo absent on either side, or pending, or with a null
latitude — is a member of no ArcGroup either mode produces (whenever
aggregation completes without throwing).  A null longitude alone does
not trigger the filter: in location mode it aborts aggregation with a
TypeError, and in app mode a longitude-less source is still grouped. -/
theorem arc_filter_excludes :
    ∀ (conns : List Conn) (home : Option Geo) (c : Conn),
      skippedConn home c = true →
      (∀ gs, arcGroups conns home = .ok gs → ∀ g ∈ gs, c ∉ g.connections) ∧
      (∀ gs, appGroups conns home = .ok gs → ∀ g ∈ gs, c ∉ g.connections) := by
  intro conns home c hc
  constructor
  · intro gs hgs
    exact foldlM_conn_excluded (arcStep home) c
      (fun acc => arcStep_skipped home acc c hc)
      (fun acc x acc1 h => arcStep_connections home acc x acc1 h)
      conns [] gs (by simp) hgs
  · intro gs hgs
    exact foldlM_conn_excluded (appStep home) c
      (fun acc => appStep_skipped home acc c hc)
      (fun acc x acc1 h => appStep_connections home acc x acc1 h)
      conns [] gs (by simp) hgs

/-- Witness for `arc_filter_excludes`: a pending connection next to a
groupable one, in location mode. -/
theorem mirrorGroup_key (g : ArcGroup) : (mirrorGroup g).key = g.key := rfl

theorem addConn_mirror (gs : List ArcGroup) (k : ArcKey) (sg dg : Geo)
    (pr : Option String) (c : Conn) :
    addConn (gs.map mirrorGroup) k dg sg pr (swapConn c) =
      (addConn gs k sg dg pr c).map mirrorGroup := by
  have hpt : ∀ g : ArcGroup,
      (fun g => if g.key = k then
          { g with connections := g.connections ++ [swapConn c],
                   totalBytes := g.totalBytes + (swapConn c).bytes,
                   totalPackets := g.totalPackets + (swapConn c).packets }
        else g) (mirrorGroup g) =
      mirrorGroup ((fun g => if g.key = k then
          { g with connections := g.connections ++ [c],
                   totalBytes := g.totalBytes + c.bytes,
                   totalPackets := g.totalPackets + c.packets }
        else g) g) := by
    intro g
    by_cases hk : g.key = k
    · simp only [mirrorGroup, hk, if_pos, List.map_append, List.map_cons,
        List.map_nil]
      exact rfl
    · simp only [mirrorGroup, hk, if_neg, ite_false]
  unfold addConn
  rw [show (gs.map mirrorGroup).any (fun g => decide (g.key = k)) =
      gs.any (fun g => decide (g.key = k)) from by rw [List.any_map]; rfl]
  by_cases h : gs.any (fun g => decide (g.key = k)) = true
  · rw [if_pos h, if_pos h, List.map_map, List.map_map]
    exact List.map_congr_left (fun g _ => hpt g)
  · rw [if_neg h, if_neg h]
    simp only [List.map_append, List.map_map, List.map_cons, List.map_nil]
    congr 1
    exact List.map_congr_left (fun g _ => hpt g)

theorem arcLocAdd_mirror (gs : List ArcGroup) (sg dg : Geo)
    (slat dlat : ℚ) (c : Conn) :
    arcLocAdd (gs.map mirrorGroup) dg sg dlat slat (swapConn c) =
      Except.map (List.map mirrorGroup) (arcLocAdd gs sg dg slat dlat c) := by
  unfold arcLocAdd
  cases hcs : coordOf slat sg.lon with
  | error e =>
      cases hcd : coordOf dlat dg.lon with
      | error e' => cases e; cases e'; rfl
      | ok dk => rfl
  | ok sk =>
      cases hcd : coordOf dlat dg.lon with
      | error e' => rfl
      | ok dk =>
          show Except.ok (addConn (gs.map mirrorGroup)
              (.loc (sortCoordPair dk sk).1 (sortCoordPair dk sk).2)
              dg sg none (swapConn c)) =
            Except.map (List.map mirrorGroup)
              (Except.ok (addConn gs
                (.loc (sortCoordPair sk dk).1 (sortCoordPair sk dk).2)
                sg dg none c))
          rw [sortCoordPair_comm dk sk, addConn_mirror]
          rfl

theorem arcStep_mirror (home : Option Geo) (gs : List ArcGroup) (c : Conn) :
    arcStep home (gs.map mirrorGroup) (swapConn c) =
      Except.map (List.map mirrorGroup) (arcStep home gs c) := by
  unfold arcStep
  have hss : effGeo (swapConn c).src_geo home = effGeo c.dst_geo home := rfl
  have hsd : effGeo (swapConn c).dst_geo home = effGeo c.src_geo home := rfl
  rw [hss, hsd]
  cases hs : effGeo c.src_geo home with
  | none =>
      cases hd : effGeo c.dst_geo home with
      | none => rfl
      | some dg => rfl
  | some sg =>
      cases hd : effGeo c.dst_geo home with
      | none => rfl
      | some dg =>
          show (if (dg.pending || sg.pending) = true then
              Except.ok (gs.map mirrorGroup)
            else match dg.lat, sg.lat with
              | some slat, some dlat =>
                  arcLocAdd (gs.map mirrorGroup) dg sg slat dlat (swapConn c)
              | _, _ => Except.ok (gs.map mirrorGroup)) =
            Except.map (List.map mirrorGroup)
              (if (sg.pending || dg.pending) = true then Except.ok gs
               else match sg.lat, dg.lat with
                 | some slat, some dlat => arcLocAdd gs sg dg slat dlat c
                 | _, _ => Except.ok gs)
          rw [Bool.or_comm dg.pending sg.pending]
          by_cases hp : (sg.pending || dg.pending) = true
          · rw [if_pos hp, if_pos hp]
            rfl
          · rw [if_neg hp, if_neg hp]
            cases hsl : sg.lat with
            | none =>
                cases hdl : dg.lat with
                | none => rfl
                | some dlat => rfl
            | some slat =>
                cases hdl : dg.lat with
                | none => rfl
                | some dlat => exact arcLocAdd_mirror gs sg dg slat dlat c

theorem arcGroups_mirror_aux (home : Option Geo) :
    ∀ (conns : List Conn) (acc : List ArcGroup),
      (conns.map swapConn).foldlM (arcStep home) (acc.map mirrorGroup) =
        Except.map (List.map mirrorGroup) (conns.foldlM (arcStep home) acc) := by
  intro conns
  induction conns with
  | nil => intro acc; rfl
  | cons c l ih =>
      intro acc
      rw [List.map_cons, List.foldlM_cons, List.foldlM_cons, arcStep_mirror]
      cases h : arcStep home acc c with
      | error e => rfl
      | ok acc1 =>
          show (l.map swapConn).foldlM (arcStep home) (acc1.map mirrorGroup) = _
          exact ih acc1

/-- C4: location-mode aggregation is direction-symmetric — swapping
every connection's endpoints yields the same key sequence and, per key,
the same totalBytes, totalPackets and member count. -/
theorem arc_swap_symmetric :
    ∀ (conns : List Conn) (home : Option Geo) (gs gs' : List ArcGroup),
      arcGroups conns home = .ok gs →
      arcGroups (conns.map swapConn) home = .ok gs' →
      (gs'.map (fun g => g.key) = gs.map (fun g => g.key)) ∧
      ∀ k, (findGroup gs' k).map summaryOf =
        (findGroup gs k).map summaryOf := by
  intro conns home gs gs' h h'
  have hm : arcGroups (conns.map swapConn) home =
      Except.map (List.map mirrorGroup) (arcGroups conns home) :=
    arcGroups_mirror_aux home conns []
  rw [h, h'] at hm
  have hgs' : gs' = gs.map mirrorGroup := by
    injection hm
  subst hgs'
  constructor
  · rw [List.map_map]
    rfl
  · intro k
    have hfind : findGroup (gs.map mirrorGroup) k =
        (findGroup gs k).map mirrorGroup := by
      unfold findGroup
      rw [List.find?_map]
      rfl
    rw [hfind]
    cases hf : findGroup gs k with
    | none => rfl
    | some g =>
        simp only [Option.map_some']
        simp [summaryOf, mirrorGroup, List.length_map]

theorem not_coordLe_wB : ¬ coordLe ((3 : ℚ), 4) (1, 2) := by
  intro h
  rcases h with h | ⟨h, h2⟩ <;> norm_num at h

/-- Witness for `arc_swap_symmetric` on a one-connection store. -/
theorem arc_swap_symmetric_witness :
    (([mirrorGroup wGroupB].map (fun g => g.key) =
        [wGroupB].map (fun g => g.key)) ∧
     ((findGroup [mirrorGroup wGroupB] (.loc (1, 2) (3, 4))).map summaryOf =
        (findGroup [wGroupB] (.loc (1, 2) (3, 4))).map summaryOf)) := by
  have h1 : arcGroups [wConnB] none = .ok [wGroupB] := by
    simp [arcGroups, List.foldlM_cons, List.foldlM_nil, arcStep, arcLocAdd,
      effGeo, wConnB, wGeoA, wGeoB, coordOf, addConn, wGroupB, sortCoordPair,
      coordLe_wB, toFixed1_one, toFixed1_two, toFixed1_three, toFixed1_four,
      Bind.bind, Except.bind, pure, Except.pure]
  have h2 : arcGroups ([wConnB].map swapConn) none =
      .ok [mirrorGroup wGroupB] := by
    simp [arcGroups, List.foldlM_cons, List.foldlM_nil, arcStep, arcLocAdd,
      effGeo, swapConn, mirrorGroup, wConnB, wGeoA, wGeoB, coordOf, addConn,
      wGroupB, sortCoordPair, not_coordLe_wB, toFixed1_one, toFixed1_two,
      toFixed1_three, toFixed1_four, Bind.bind, Except.bind, pure,
      Except.pure]
  exact ⟨(arc_swap_symmetric [wConnB] none [wGroupB] [mirrorGroup wGroupB]
      h1 h2).1,
    (arc_swap_symmetric [wConnB] none [wGroupB] [mirrorGroup wGroupB]
      h1 h2).2 (.loc (1, 2) (3, 4))⟩

theorem latLonToVector3_normSq (lat lon : ℝ) :
    (latLonToVector3 lat lon).1 ^ 2 + (latLonToVector3 lat lon).2.1 ^ 2 +
      (latLonToVector3 lat lon).2.2 ^ 2 = 1 := by
  dsimp only [latLonToVector3]
  have h1 := Real.sin_sq_add_cos_sq ((90 - lat) * (Real.pi / 180))
  have h2 := Real.sin_sq_add_cos_sq ((lon + 180) * (Real.pi / 180))
  nlinarith [h1, h2]

theorem vnormalize_latLon (lat lon : ℝ) :
    vnormalize (latLonToVector3 lat lon) = latLonToVector3 lat lon := by
  unfold vnormalize
  rw [latLonToVector3_normSq, Real.sqrt_one]
  simp

theorem arcAngle_self (lat lon : ℝ) : arcAngle lat lon lat lon = 0 := by
  unfold arcAngle
  rw [vnormalize_latLon]
  unfold angleTo
  rw [latLonToVector3_normSq, one_mul, Real.sqrt_one]
  rw [if_neg (by norm_num)]
  have hdot : (latLonToVector3 lat lon).1 * (latLonToVector3 lat lon).1 +
      (latLonToVector3 lat lon).2.1 * (latLonToVector3 lat lon).2.1 +
      (latLonToVector3 lat lon).2.2 * (latLonToVector3 lat lon).2.2 = 1 := by
    have h := latLonToVector3_normSq lat lon
    nlinarith [h]
  rw [hdot, div_one, min_self, max_eq_right (by norm_num : (-1 : ℝ) ≤ 1),
    Real.arccos_one]

/-- C8 counterexample: an exactly antipodal pair — (0°, −180°) and
(0°, 0°) — has `angle = π ≥ 0.01`, so `createArcCurve` does NOT take the
two-control-point fallback for near-antipodal endpoints; it runs the
spherical interpolation whose divisor `sin(angle)` is 0 in exact
arithmetic (≈1.2e−16 in floats). -/
theorem arc_fallback_cex :
    (¬ takesFallback 0 (-180) 0 0) ∧
    (Real.sin (arcAngle 0 (-180) 0 0) = 0) := by
  have hv1 : latLonToVector3 0 (-180) = (-1, 0, 0) := by
    unfold latLonToVector3
    rw [show ((90 : ℝ) - 0) * (Real.pi / 180) = Real.pi / 2 by ring,
      show ((-180 : ℝ) + 180) * (Real.pi / 180) = 0 by ring,
      Real.sin_pi_div_two, Real.cos_pi_div_two, Real.sin_zero, Real.cos_zero]
    norm_num
  have hv2 : latLonToVector3 0 0 = (1, 0, 0) := by
    unfold latLonToVector3
    rw [show ((90 : ℝ) - 0) * (Real.pi / 180) = Real.pi / 2 by ring,
      show ((0 : ℝ) + 180) * (Real.pi / 180) = Real.pi by ring,
      Real.sin_pi_div_two, Real.cos_pi_div_two, Real.sin_pi, Real.cos_pi]
    norm_num
  have hangle : arcAngle 0 (-180) 0 0 = Real.pi := by
    unfold arcAngle
    rw [vnormalize_latLon, vnormalize_latLon]
    unfold angleTo
    rw [latLonToVector3_normSq, latLonToVector3_normSq, one_mul,
      Real.sqrt_one, if_neg (by norm_num), hv1, hv2]
    norm_num
  refine ⟨?_, by rw [hangle, Real.sin_pi]⟩
  unfold takesFallback
  rw [hangle]
  intro hc
  have := Real.pi_gt_three
  linarith

/-- C8 (amended): only near-coincident endpoint pairs (`angle < 0.01`
rad — in particular identical endpoints, whose angle is exactly 0) take
the two-control-point fallback; near-antipodal pairs do not (their angle
is ≈ π and they run the spherical interpolation with `sin(angle)` near
zero — exactly zero at antipodes in exact arithmetic). -/
theorem arc_fallback_spec :
    ∀ lat lon : ℝ,
      arcAngle lat lon lat lon = 0 ∧ takesFallback lat lon lat lon := by
  intro lat lon
  have h := arcAngle_self lat lon
  refine ⟨h, ?_⟩
  unfold takesFallback
  rw [h]
  norm_num

theorem arc_filter_excludes_witness :
    (skippedConn none wConnPending = true) ∧
    (wConnPending ∉ wGroupB.connections) :=
  ⟨by decide,
   (arc_filter_excludes [wConnB, wConnPending] none wConnPending
       (by decide)).1 [wGroupB]
     (by
       simp [arcGroups, List.foldlM_cons, List.foldlM_nil, arcStep,
         arcLocAdd, effGeo, wConnB, wConnPending, wGeoA, wGeoB, wGeoPending,
         coordOf, addConn, wGroupB, sortCoordPair, coordLe_wB, toFixed1_one,
         toFixed1_two, toFixed1_three, toFixed1_four, Bind.bind, Except.bind,
         pure, Except.pure])
     wGroupB (List.mem_singleton.mpr rfl)⟩

end Shark
